import Mathlib

/-!
# Verification of the CtrlF document-preview cache and rendering pipeline

Shallow embedding of `src/app/page.tsx` (the chat UI's preview subsystem).
Strings are modelled as `List Char` (named `Str` here); JavaScript `Map`s and
`Set`s keyed by preview keys are modelled as functions `Str → Option α` and
`Str → Bool`.  The asynchronous `generatePreview` function is modelled as a
sequence of atomic events separated at its `await` suspension points, so that
overlapping invocations can be interleaved.
-/

set_option maxHeartbeats 1000000

namespace CtrlF

/-- Strings as lists of characters. -/
abbrev Str := List Char

/-- JS `s.split(sep)[0]`: the prefix of `s` strictly before the first
occurrence of `sep` (the whole string when `sep` does not occur). -/
def takeUntil (sep : Char) (s : Str) : Str :=
  s.takeWhile (fun c => c ≠ sep)

/-- `doc.url.split('#')[0].split('?')[0]` (page.tsx lines 186, 222, 227):
strip everything from the first `#`, then everything from the first `?`. -/
def cleanUrl (u : Str) : Str :=
  takeUntil '?' (takeUntil '#' u)

/-- Fuel-bounded digit extraction (the fuel keeps the recursion structural,
so that concrete keys evaluate inside the kernel). -/
def natCharsCore (fuel n : Nat) : List Char :=
  match fuel with
  | 0 => []
  | fuel + 1 =>
    if n = 0 then []
    else natCharsCore fuel (n / 10) ++ [Nat.digitChar (n % 10)]

/-- Decimal rendering of a natural number, as produced by JS template
interpolation `${page}`.  Digits are produced most-significant first. -/
def natChars (n : Nat) : Str :=
  if n = 0 then ['0'] else natCharsCore n n

/-- The cache key `` `${url}_${page}` `` (page.tsx line 61, 190, 228, 296). -/
def previewKey (url : Str) (page : Nat) : Str :=
  url ++ '_' :: natChars page

/-- A citation as delivered by the backend: `{title, url, page}`
(page.tsx `DocumentPreview` / `ChatResponse.documents`). -/
structure Citation where
  url : Str
  page : Nat
  title : Str
deriving DecidableEq

/-- End-to-end key derivation for a raw backend citation: `handleSubmit`
normalises the locator (`const cleanUrl = doc.url.split('#')[0].split('?')[0]`,
line 186) and `generatePreview` appends the page
(`` const previewKey = `${doc.url}_${doc.page}` ``, line 61). -/
def deriveKey (c : Citation) : Str :=
  previewKey (cleanUrl c.url) c.page

/-- The key as computed inside `generatePreview` and the thumbnail view
(lines 61 and 296): no locator normalisation, the stored `doc.url` is used
as-is (it was already normalised by `handleSubmit`). -/
def genKey (c : Citation) : Str :=
  previewKey c.url c.page

/-! ## Elementary facts about `takeUntil` and `natChars` -/

theorem takeUntil_cons_ne (sep c : Char) (r : Str) (h : c ≠ sep) :
    takeUntil sep (c :: r) = c :: takeUntil sep r := by
  simp [takeUntil, List.takeWhile_cons, h]

theorem takeUntil_cons_self (sep : Char) (r : Str) :
    takeUntil sep (sep :: r) = [] := by
  simp [takeUntil, List.takeWhile_cons]

theorem takeUntil_of_not_mem (sep : Char) (s : Str) (h : sep ∉ s) :
    takeUntil sep s = s := by
  induction s with
  | nil => rfl
  | cons c cs ih =>
    simp only [List.mem_cons, not_or] at h
    rw [takeUntil_cons_ne _ _ _ (Ne.symm h.1), ih h.2]

theorem takeUntil_append_of_not_mem (sep : Char) (a b : Str) (ha : sep ∉ a) :
    takeUntil sep (a ++ b) = a ++ takeUntil sep b := by
  induction a with
  | nil => rfl
  | cons c cs ih =>
    simp only [List.mem_cons, not_or] at ha
    rw [List.cons_append, takeUntil_cons_ne _ _ _ (Ne.symm ha.1), ih ha.2,
      List.cons_append]

/-- A "decoration" on a document locator: empty, or a fragment starting with
`#`, or a query starting with `?` (possibly containing further `#`/`?`). -/
def Decoration (d : Str) : Prop :=
  d = [] ∨ (∃ r, d = '#' :: r) ∨ (∃ r, d = '?' :: r)

instance : DecidablePred Decoration := by
  intro d
  unfold Decoration
  rcases d with _ | ⟨c, r⟩
  · exact isTrue (Or.inl rfl)
  · by_cases h1 : c = '#'
    · exact isTrue (Or.inr (Or.inl ⟨r, by rw [h1]⟩))
    · by_cases h2 : c = '?'
      · exact isTrue (Or.inr (Or.inr ⟨r, by rw [h2]⟩))
      · refine isFalse ?_
        rintro (h | ⟨r', h⟩ | ⟨r', h⟩) <;> simp_all

/-- Stripping a decorated locator recovers the bare locator. -/
theorem cleanUrl_append_decoration (base d : Str)
    (h1 : '#' ∉ base) (h2 : '?' ∉ base) (hd : Decoration d) :
    cleanUrl (base ++ d) = base := by
  rcases hd with h | ⟨r, h⟩ | ⟨r, h⟩ <;> subst h
  · rw [List.append_nil]
    unfold cleanUrl
    rw [takeUntil_of_not_mem _ _ h1, takeUntil_of_not_mem _ _ h2]
  · unfold cleanUrl
    rw [takeUntil_append_of_not_mem _ _ _ h1, takeUntil_cons_self,
      List.append_nil, takeUntil_of_not_mem _ _ h2]
  · unfold cleanUrl
    rw [takeUntil_append_of_not_mem _ _ _ h1]
    have : takeUntil '#' ('?' :: r) = '?' :: takeUntil '#' r := by
      simp [takeUntil, List.takeWhile_cons]
    rw [this, takeUntil_append_of_not_mem _ _ _ h2, takeUntil_cons_self,
      List.append_nil]

theorem digitChar_inj {a b : Nat} (ha : a < 10) (hb : b < 10)
    (h : Nat.digitChar a = Nat.digitChar b) : a = b := by
  interval_cases a <;> interval_cases b <;> first
  | rfl
  | exact absurd h (by decide)

theorem map_digitChar_inj {l1 l2 : List Nat}
    (h1 : ∀ d ∈ l1, d < 10) (h2 : ∀ d ∈ l2, d < 10)
    (h : l1.map Nat.digitChar = l2.map Nat.digitChar) : l1 = l2 := by
  induction l1 generalizing l2 with
  | nil =>
    cases l2 with
    | nil => rfl
    | cons d r => simp at h
  | cons d r ih =>
    cases l2 with
    | nil => simp at h
    | cons d2 r2 =>
      simp only [List.map_cons, List.cons.injEq] at h
      have hd : d = d2 :=
        digitChar_inj (h1 d (List.mem_cons_self _ _)) (h2 d2 (List.mem_cons_self _ _)) h.1
      have hr : r = r2 :=
        ih (fun x hx => h1 x (List.mem_cons_of_mem _ hx))
          (fun x hx => h2 x (List.mem_cons_of_mem _ hx)) h.2
      rw [hd, hr]

/-- `natCharsCore` agrees with the big-endian rendering of `Nat.digits`. -/
theorem natCharsCore_eq_digits {fuel n : Nat} (h : n ≤ fuel) :
    natCharsCore fuel n = ((Nat.digits 10 n).map Nat.digitChar).reverse := by
  induction fuel generalizing n with
  | zero =>
    have : n = 0 := Nat.le_zero.mp h
    subst this
    simp [natCharsCore]
  | succ fuel ih =>
    by_cases hn : n = 0
    · subst hn
      simp [natCharsCore]
    · have hpos : 0 < n := Nat.pos_of_ne_zero hn
      have hdiv : n / 10 ≤ fuel := by
        have := Nat.div_lt_self hpos (by norm_num : 1 < 10)
        omega
      rw [natCharsCore, if_neg hn, ih hdiv,
        Nat.digits_def' (by norm_num : 1 < 10) hpos]
      simp

theorem natChars_eq_digits {n : Nat} (hn : n ≠ 0) :
    natChars n = ((Nat.digits 10 n).map Nat.digitChar).reverse := by
  rw [natChars, if_neg hn, natCharsCore_eq_digits le_rfl]

theorem natChars_ne_singleton_zero {n : Nat} (hn : n ≠ 0) : natChars n ≠ ['0'] := by
  rw [natChars_eq_digits hn]
  intro h
  have hmaps : (Nat.digits 10 n).map Nat.digitChar = ['0'] := by
    have := congrArg List.reverse h
    simpa using this
  have hd : Nat.digits 10 n = [0] := by
    apply map_digitChar_inj (fun d hd => Nat.digits_lt_base (by norm_num) hd)
      (fun d hd => by simp at hd; omega)
    simpa using hmaps
  have := Nat.ofDigits_digits 10 n
  rw [hd] at this
  simp [Nat.ofDigits] at this
  exact hn this.symm

theorem natChars_inj {a b : Nat} (h : natChars a = natChars b) : a = b := by
  by_cases ha : a = 0 <;> by_cases hb : b = 0
  · omega
  · exfalso
    apply natChars_ne_singleton_zero hb
    rw [← h]
    unfold natChars
    rw [if_pos ha]
  · exfalso
    apply natChars_ne_singleton_zero ha
    rw [h]
    unfold natChars
    rw [if_pos hb]
  · rw [natChars_eq_digits ha, natChars_eq_digits hb] at h
    have hmaps := List.reverse_injective h
    have hdigs := map_digitChar_inj (fun d hd => Nat.digits_lt_base (by norm_num) hd)
      (fun d hd => Nat.digits_lt_base (by norm_num) hd) hmaps
    have oa := Nat.ofDigits_digits 10 a
    rw [hdigs, Nat.ofDigits_digits] at oa
    omega

theorem previewKey_eq_iff (base : Str) (p q : Nat) :
    previewKey base p = previewKey base q ↔ p = q := by
  constructor
  · intro h
    unfold previewKey at h
    have h2 := List.append_cancel_left h
    injection h2 with hh ht
    exact natChars_inj ht
  · intro h; rw [h]

/-! ## The Page Renderer Adapter (the `try` block of `generatePreview`)

The external pdf.js engine is an oracle: an invocation is parameterised by
the outcome of each of its asynchronous / fallible steps
(`getDocument`, `page.render`) and of the two synchronous
`canvas.getContext('2d')` acquisitions.  `getPage` is modelled per the
engine's documented behaviour: it rejects when the page number is out of
the document's `1..numPages` range. -/

/-- A rendered bitmap: which document, which page, at which scale factor
(the canvas `toDataURL` payload is abstracted to this identifying triple). -/
structure Bitmap where
  url : Str
  page : Nat
  scale : ℚ
deriving DecidableEq

/-- The opened PDF document, reduced to what `getPage` consults. -/
structure PdfDocument where
  numPages : Nat
deriving DecidableEq

/-- Outcomes of the external engine's steps for one render invocation. -/
structure RenderOracle where
  /-- Outcome of `pdfjs.getDocument({url, ...}).promise`. -/
  openRes : Except Str PdfDocument
  /-- Whether `smallCanvas.getContext('2d')` returns a context. -/
  smallCtxOk : Bool
  /-- Whether `largeCanvas.getContext('2d')` returns a context. -/
  largeCtxOk : Bool
  /-- Outcome of `page.render({... smallViewport}).promise`. -/
  smallRenderRes : Except Str Unit
  /-- Outcome of `page.render({... largeViewport}).promise`. -/
  largeRenderRes : Except Str Unit

/-- `throw new Error('Failed to get small canvas context')` (line 87). -/
def smallCtxErrMsg : Str := "Failed to get small canvas context".data

/-- `throw new Error('Failed to get large canvas context')` (line 101). -/
def largeCtxErrMsg : Str := "Failed to get large canvas context".data

/-- pdf.js `getPage` rejection for an out-of-range page number
(external engine behaviour, message text abstracted). -/
def invalidPageMsg : Str := "Invalid page request".data

/-- The body of the `try` block of `generatePreview` (lines 72-106):
open the document, fetch the page, render at scale 0.5 into a first canvas,
then at scale 1.5 into a second canvas; the first failure aborts the whole
attempt.  Produces both bitmaps or a single error. -/
def renderPipeline (o : RenderOracle) (url : Str) (page : Nat) :
    Except Str (Bitmap × Bitmap) :=
  match o.openRes with
  | .error m => .error m
  | .ok pdf =>
    if page = 0 ∨ pdf.numPages < page then .error invalidPageMsg
    else if o.smallCtxOk = false then .error smallCtxErrMsg
    else
      match o.smallRenderRes with
      | .error m => .error m
      | .ok _ =>
        if o.largeCtxOk = false then .error largeCtxErrMsg
        else
          match o.largeRenderRes with
          | .error m => .error m
          | .ok _ => .ok (⟨url, page, (1 : ℚ)/2⟩, ⟨url, page, (3 : ℚ)/2⟩)

/-! ## The Preview Cache Store and the event-level model of `generatePreview`

`generatePreview` is an `async` function; its execution decomposes into
synchronous segments separated by `await` suspension points.  The segments
that touch the four stores are:

* `guardInvoke` — the segment that runs after `await configurePdfjs()`
  resolves: the `setLoadingPreviews` functional update (which adds the key
  unless it is already in the loading set or present in the *closure
  snapshot* of `previews`), followed by entering the `try` block, i.e.
  starting `pdfjs.getDocument` — the Renderer Adapter invocation, recorded
  in a ghost `invocations` log.  Note the update returning `prev` does NOT
  return from `generatePreview`; control always proceeds into the `try`.
* `finishOk` — the segment after the last render `await`: `setPreviews`,
  `setLargePreviews`, then the `finally` deletion from the loading set.
* `finishErr` — the `catch` segment: `setPreviewErrors` with the thrown
  message (`'Unknown error'` for a non-`Error` value), then the `finally`
  deletion.

The `snapHasKey` field of `guardInvoke` is the truthiness of
`previews.get(previewKey)` read from the closure captured when the React
render that spawned this call took place. -/

structure PreviewStore where
  /-- `previews : Map<string, string>` — small-bitmap data-URL cache. -/
  previews : Str → Option Bitmap
  /-- `largePreviews : Map<string, string>` — large-bitmap cache. -/
  largePreviews : Str → Option Bitmap
  /-- `loadingPreviews : Set<string>` — in-flight set. -/
  loading : Str → Bool
  /-- `previewErrors : Map<string, string>` — error map. -/
  errors : Str → Option Str
  /-- Ghost log of Page Renderer Adapter invocations (keys, in order). -/
  invocations : List Str

/-- All four stores start empty (`new Map()` / `new Set()` initial state). -/
def initStore : PreviewStore where
  previews := fun _ => none
  largePreviews := fun _ => none
  loading := fun _ => false
  errors := fun _ => none
  invocations := []

/-- One synchronous segment of an (possibly overlapping) `generatePreview`
execution, as described above. -/
inductive Event where
  | guardInvoke (doc : Citation) (snapHasKey : Bool)
  | finishOk (doc : Citation) (small large : Bitmap)
  | finishErr (doc : Citation) (msg : Str)

/-- `Map.set` / function update at one key. -/
def setAt (m : Str → Option α) (k : Str) (v : α) : Str → Option α :=
  fun k' => if k' = k then some v else m k'

/-- Effect of one synchronous segment on the four stores. -/
def step (s : PreviewStore) : Event → PreviewStore
  | .guardInvoke doc snapHasKey =>
    let k := genKey doc
    -- setLoadingPreviews(prev => { if (prev.has(k) || previews.get(k)) return prev;
    --                              const next = new Set(prev); next.add(k); return next; })
    -- followed unconditionally by the pdfjs.getDocument call.
    { s with
      loading := if s.loading k || snapHasKey then s.loading
                 else fun k' => if k' = k then true else s.loading k'
      invocations := s.invocations ++ [k] }
  | .finishOk doc small large =>
    let k := genKey doc
    -- setPreviews(.set(k, small)); setLargePreviews(.set(k, large));
    -- finally: setLoadingPreviews(delete k)
    { s with
      previews := setAt s.previews k small
      largePreviews := setAt s.largePreviews k large
      loading := fun k' => if k' = k then false else s.loading k' }
  | .finishErr doc msg =>
    let k := genKey doc
    -- catch: setPreviewErrors(.set(k, msg)); finally: setLoadingPreviews(delete k)
    { s with
      errors := setAt s.errors k msg
      loading := fun k' => if k' = k then false else s.loading k' }

/-- Run a sequence of segments from a store. -/
def run (s : PreviewStore) (es : List Event) : PreviewStore :=
  es.foldl step s

/-- A complete, non-interleaved execution of `generatePreview doc` (in the
browser, where `configurePdfjs` returns the engine): guard-and-invoke, then
the try-block pipeline, then the success or the catch segment.  Total by
construction: every pipeline failure is absorbed into the error map, none is
re-thrown to the caller. -/
def generatePreviewRun (s : PreviewStore) (doc : Citation) (snapHasKey : Bool)
    (o : RenderOracle) : PreviewStore :=
  let s1 := step s (.guardInvoke doc snapHasKey)
  match renderPipeline o doc.url doc.page with
  | .ok (small, large) => step s1 (.finishOk doc small large)
  | .error m => step s1 (.finishErr doc m)

/-- The `useEffect` body (lines 240-250): every citation of every message is
submitted via `generatePreview`; calls are fired in order and here modelled
as running to completion one after the other. -/
def submitAll (s : PreviewStore) (jobs : List (Citation × Bool × RenderOracle)) :
    PreviewStore :=
  jobs.foldl (fun st j => generatePreviewRun st j.1 j.2.1 j.2.2) s

/-- A state reached from the empty stores by some interleaving of
`generatePreview` segments. -/
def Reachable (s : PreviewStore) : Prop :=
  ∃ es : List Event, s = run initStore es

/-- The spec's `Ready` state for a key: both resolutions are cached
(spec section 3: `Ready { smallBitmap, largeBitmap }`). -/
def Ready (s : PreviewStore) (k : Str) : Prop :=
  (s.previews k).isSome ∧ (s.largePreviews k).isSome

instance (s : PreviewStore) (k : Str) : Decidable (Ready s k) := by
  unfold Ready; infer_instance

/-! ## The rendering layer (Citation Surface Controller projections) -/

/-- What the thumbnail strip paints for one citation. -/
inductive ThumbView where
  | errorView
  | loadingView
  | thumb (b : Bitmap)
  | nothing
deriving DecidableEq

/-- The per-citation branch of the message list renderer (lines 296-334):
the error map is consulted first, then the in-flight set, then the
small-bitmap cache; with none of them populated nothing is painted. -/
def thumbnailView (s : PreviewStore) (doc : Citation) : ThumbView :=
  let k := genKey doc
  match s.errors k with
  | some _ => .errorView
  | none =>
    if s.loading k then .loadingView
    else
      match s.previews k with
      | some b => .thumb b
      | none => .nothing

/-- The modal selection as stored in `selectedPreview` by
`handlePreviewClick` (lines 226-238): the citation with its normalised
locator, plus the cached large bitmap. -/
structure SelectedPreview where
  url : Str
  page : Nat
  title : Str
  largePreviewUrl : Bitmap
deriving DecidableEq

/-- The key `handlePreviewClick` consults:
`` `${doc.url.split('#')[0].split('?')[0]}_${doc.page}` `` (lines 227-228). -/
def modalKey (doc : Citation) : Str :=
  previewKey (cleanUrl doc.url) doc.page

/-- The lookup at the heart of `handlePreviewClick`:
`largePreviews.get(previewKey)` (line 229). -/
def selectForModal (s : PreviewStore) (doc : Citation) : Option Bitmap :=
  s.largePreviews (modalKey doc)

/-- A chat turn (the `Message` interface); an absent `documents` field is
modelled as the empty list. -/
structure ChatMessage where
  isAssistant : Bool
  content : Str
  documents : List Citation

/-- The component state of `Home` that `handleSubmit` and
`handlePreviewClick` touch. -/
structure AppState where
  messages : List ChatMessage
  input : Str
  chatLoading : Bool
  store : PreviewStore
  selectedPreview : Option SelectedPreview

/-- `handlePreviewClick(doc)` (lines 226-238): opens the modal only when the
large-bitmap cache has the key; otherwise leaves `selectedPreview` alone. -/
def handlePreviewClick (app : AppState) (doc : Citation) : AppState :=
  match selectForModal app.store doc with
  | some lg =>
    { app with selectedPreview := some ⟨cleanUrl doc.url, doc.page, doc.title, lg⟩ }
  | none => app

/-! ## `handleSubmit` (lines 121-131) -/

/-- The whitespace class removed by JS `String.prototype.trim` (ASCII
whitespace, line terminators and the common Unicode blanks). -/
def isJsWhitespace (c : Char) : Bool :=
  c = ' ' || c = '\t' || c = '\n' || c = '\r' ||
  c = '\x0b' || c = '\x0c' || c = '\u00A0' || c = '\uFEFF'

/-- JS `input.trim()`. -/
def jsTrim (s : Str) : Str :=
  ((s.dropWhile isJsWhitespace).reverse.dropWhile isJsWhitespace).reverse

/-- The synchronous prefix of `handleSubmit` (lines 122-131): the blank-input
guard `if (!input.trim()) return;`, then appending the user message, raising
the loading flag and issuing the backend request (returned as the optional
request body).  The asynchronous response handling that follows does not
touch the preview stores and is irrelevant to the claims. -/
def handleSubmitStart (app : AppState) : AppState × Option Str :=
  if jsTrim app.input = [] then (app, none)
  else
    ({ app with
        messages := app.messages ++ [⟨false, app.input, []⟩]
        chatLoading := true },
      some app.input)

/-! ## Store invariants -/

/-- The two bitmap caches are populated for exactly the same keys. -/
def balanced (s : PreviewStore) : Prop :=
  ∀ k, (s.previews k).isSome ↔ (s.largePreviews k).isSome

theorem balanced_init : balanced initStore := by
  intro k; simp [initStore]

theorem balanced_step {s : PreviewStore} (h : balanced s) (e : Event) :
    balanced (step s e) := by
  cases e with
  | guardInvoke doc snap => intro k; exact h k
  | finishOk doc small large =>
    intro k
    simp only [step, setAt]
    by_cases hk : k = genKey doc <;> simp [hk, h k]
  | finishErr doc msg => intro k; exact h k

theorem balanced_run {s : PreviewStore} (h : balanced s) (es : List Event) :
    balanced (run s es) := by
  induction es generalizing s with
  | nil => exact h
  | cons e es ih => exact ih (balanced_step h e)

theorem balanced_of_reachable {s : PreviewStore} (h : Reachable s) :
    balanced s := by
  obtain ⟨es, rfl⟩ := h
  exact balanced_run balanced_init es

/-- Bitmap-cache entries are never deleted by any segment. -/
theorem previews_isSome_step {s : PreviewStore} {k : Str}
    (h : (s.previews k).isSome) (e : Event) :
    ((step s e).previews k).isSome := by
  cases e with
  | guardInvoke doc snap => exact h
  | finishOk doc small large =>
    simp only [step, setAt]
    by_cases hk : k = genKey doc <;> simp [hk, h]
  | finishErr doc msg => exact h

theorem largePreviews_isSome_step {s : PreviewStore} {k : Str}
    (h : (s.largePreviews k).isSome) (e : Event) :
    ((step s e).largePreviews k).isSome := by
  cases e with
  | guardInvoke doc snap => exact h
  | finishOk doc small large =>
    simp only [step, setAt]
    by_cases hk : k = genKey doc <;> simp [hk, h]
  | finishErr doc msg => exact h

/-- Error-map entries are never deleted by any segment. -/
theorem errors_isSome_step {s : PreviewStore} {k : Str}
    (h : (s.errors k).isSome) (e : Event) :
    ((step s e).errors k).isSome := by
  cases e with
  | guardInvoke doc snap => exact h
  | finishOk doc small large => exact h
  | finishErr doc msg =>
    simp only [step, setAt]
    by_cases hk : k = genKey doc <;> simp [hk, h]

theorem ready_step {s : PreviewStore} {k : Str} (h : Ready s k) (e : Event) :
    Ready (step s e) k :=
  ⟨previews_isSome_step h.1 e, largePreviews_isSome_step h.2 e⟩

theorem ready_run {s : PreviewStore} {k : Str} (h : Ready s k)
    (es : List Event) : Ready (run s es) k := by
  induction es generalizing s with
  | nil => exact h
  | cons e es ih => exact ih (ready_step h e)

/-- Every Renderer Adapter invocation of a call is logged unconditionally:
entering the `try` block is not gated by the loading/cache check. -/
theorem generatePreviewRun_invocations (s : PreviewStore) (d : Citation)
    (b : Bool) (o : RenderOracle) :
    (generatePreviewRun s d b o).invocations = s.invocations ++ [genKey d] := by
  unfold generatePreviewRun
  cases h : renderPipeline o d.url d.page with
  | ok p => cases p; rfl
  | error m => rfl

theorem submitAll_invocations (jobs : List (Citation × Bool × RenderOracle))
    (s : PreviewStore) :
    (submitAll s jobs).invocations =
      s.invocations ++ jobs.map (fun j => genKey j.1) := by
  induction jobs generalizing s with
  | nil => simp [submitAll]
  | cons j js ih =>
    show (submitAll (generatePreviewRun s j.1 j.2.1 j.2.2) js).invocations = _
    rw [ih, generatePreviewRun_invocations]
    simp

/-! ## Concrete sample data used by evaluation theorems -/

/-- A sample citation: `{url: "a.pdf", page: 1, title: "A"}`. -/
def sampleDoc : Citation := ⟨"a.pdf".data, 1, "A".data⟩

/-- The small bitmap a successful render of `sampleDoc` yields. -/
def sampleSmall : Bitmap := ⟨"a.pdf".data, 1, (1 : ℚ)/2⟩

/-- The large bitmap a successful render of `sampleDoc` yields. -/
def sampleLarge : Bitmap := ⟨"a.pdf".data, 1, (3 : ℚ)/2⟩

/-- A render oracle whose `getDocument` rejects. -/
def sampleFailOracle : RenderOracle :=
  ⟨.error "Open failed".data, true, true, .ok (), .ok ()⟩

/-- A render oracle for a 5-page document on which every step succeeds. -/
def sampleOkOracle : RenderOracle :=
  ⟨.ok ⟨5⟩, true, true, .ok (), .ok ()⟩

/-! ## The claims -/

/-- C1. The claim reads: calling `ensurePreview` (`generatePreview`) any
number of times causes at most one Renderer Adapter invocation per key, a
call that observes the key cached or in flight returning without invoking
the renderer.  The code violates this: the Ready/Pending check sits inside
the `setLoadingPreviews` functional updater, whose `return prev` only skips
the loading-set insertion and does not return from `generatePreview`, so
every call proceeds into the `try` block and calls `pdfjs.getDocument`.
This theorem evaluates the model at the failing input: the same citation
submitted twice (first call completed and cached, second call observing the
cache) still produces two renderer invocations for the key. -/
theorem generatePreview_reinvokes_renderer :
    (run initStore
      [.guardInvoke sampleDoc false,
       .finishOk sampleDoc sampleSmall sampleLarge,
       .guardInvoke sampleDoc true]).invocations.count (genKey sampleDoc) = 2 := by
  decide

/-- C2 (counterexample). The claim reads: once a key is Failed, every later
`ensurePreview` call returns immediately and never invokes the renderer
again.  On the code there is no Failed check at all: after a key's render
fails (error entry present), a subsequent `generatePreview` call for the
same citation invokes the renderer a second time. -/
theorem failed_key_renderer_reinvoked_cex :
    ((run initStore
        [.guardInvoke sampleDoc false,
         .finishErr sampleDoc "Open failed".data]).errors (genKey sampleDoc)).isSome
    ∧ (run initStore
        [.guardInvoke sampleDoc false,
         .finishErr sampleDoc "Open failed".data,
         .guardInvoke sampleDoc false]).invocations.count (genKey sampleDoc) = 2 := by
  decide

/-- C2 (amended): once a key has an entry in the error map, no later segment
removes it — the Failed record itself is permanent — but a subsequent
`generatePreview` call for a citation with that key still invokes the Page
Renderer Adapter (the invocation log grows by the key on every call). -/
theorem failed_entry_persists_renderer_reinvoked (s : PreviewStore) (k : Str)
    (e : Event) (c : Citation) (b : Bool) (h : (s.errors k).isSome) :
    ((step s e).errors k).isSome ∧
    (step s (.guardInvoke c b)).invocations = s.invocations ++ [genKey c] :=
  ⟨errors_isSome_step h e, rfl⟩

theorem failed_entry_persists_renderer_reinvoked_witness :
    (((step (run initStore
        [.guardInvoke sampleDoc false, .finishErr sampleDoc "Open failed".data])
        (.finishOk sampleDoc sampleSmall sampleLarge)).errors (genKey sampleDoc)).isSome
      ∧ (step (run initStore
          [.guardInvoke sampleDoc false, .finishErr sampleDoc "Open failed".data])
          (.guardInvoke sampleDoc false)).invocations =
        (run initStore
          [.guardInvoke sampleDoc false,
           .finishErr sampleDoc "Open failed".data]).invocations ++ [genKey sampleDoc]) :=
  failed_entry_persists_renderer_reinvoked _ (genKey sampleDoc)
    (.finishOk sampleDoc sampleSmall sampleLarge) sampleDoc false (by decide)

/-- C3: for citations whose locators differ only by fragment (`#...`) and/or
query (`?...`) decorations over a common bare locator, the derived preview
keys agree exactly when the page numbers agree. -/
theorem deriveKey_decoration_iff (base da db ta tb : Str) (pa pb : Nat)
    (h1 : '#' ∉ base) (h2 : '?' ∉ base)
    (hda : Decoration da) (hdb : Decoration db) :
    deriveKey ⟨base ++ da, pa, ta⟩ = deriveKey ⟨base ++ db, pb, tb⟩ ↔ pa = pb := by
  show previewKey (cleanUrl (base ++ da)) pa
      = previewKey (cleanUrl (base ++ db)) pb ↔ pa = pb
  rw [cleanUrl_append_decoration base da h1 h2 hda,
    cleanUrl_append_decoration base db h1 h2 hdb]
  exact previewKey_eq_iff base pa pb

/-- C3 witness: the claim's concrete instance — `https://x/doc.pdf?v=2`
page 3 and `https://x/doc.pdf#page=1` page 3 share one PreviewKey. -/
theorem deriveKey_decoration_iff_witness :
    deriveKey ⟨"https://x/doc.pdf".data ++ "?v=2".data, 3, "T".data⟩ =
      deriveKey ⟨"https://x/doc.pdf".data ++ "#page=1".data, 3, "U".data⟩ :=
  (deriveKey_decoration_iff "https://x/doc.pdf".data "?v=2".data "#page=1".data
    "T".data "U".data 3 3 (by decide) (by decide) (by decide) (by decide)).mpr rfl

/-- Another citation, with a key distinct from `sampleDoc`'s. -/
def otherDoc : Citation := ⟨"b.pdf".data, 2, "B".data⟩

/-- C4: `generatePreview` never propagates an exception: the whole render
pipeline (document open, page fetch, context acquisition, rasterization)
runs inside the `try` block, so its model is a total function on stores — a
failing pipeline is recorded as the key's error message, every other key's
four store entries are untouched, and a fold submitting all citations of all
messages still invokes the renderer once per citation (a bad citation does
not stop the processing of the rest). -/
theorem generatePreview_recovers_errors_locally (s : PreviewStore)
    (doc : Citation) (snap : Bool) (o : RenderOracle) (m : Str) (k' : Str)
    (jobs : List (Citation × Bool × RenderOracle))
    (herr : renderPipeline o doc.url doc.page = .error m)
    (hk' : k' ≠ genKey doc) :
    (generatePreviewRun s doc snap o).errors (genKey doc) = some m ∧
    (generatePreviewRun s doc snap o).previews k' = s.previews k' ∧
    (generatePreviewRun s doc snap o).largePreviews k' = s.largePreviews k' ∧
    (generatePreviewRun s doc snap o).errors k' = s.errors k' ∧
    (generatePreviewRun s doc snap o).loading k' = s.loading k' ∧
    (submitAll s jobs).invocations =
      s.invocations ++ jobs.map (fun j => genKey j.1) := by
  have hrun : generatePreviewRun s doc snap o
      = step (step s (.guardInvoke doc snap)) (.finishErr doc m) := by
    unfold generatePreviewRun
    rw [herr]
  rw [hrun]
  refine ⟨?_, rfl, rfl, ?_, ?_, submitAll_invocations jobs s⟩
  · simp [step, setAt]
  · simp [step, setAt, hk']
  · simp only [step]
    rw [if_neg hk']
    by_cases hl : s.loading (genKey doc) || snap
    · rw [if_pos hl]
    · rw [if_neg hl, if_neg hk']

theorem generatePreview_recovers_errors_locally_witness :
    ((generatePreviewRun initStore sampleDoc false sampleFailOracle).errors
        (genKey sampleDoc) = some "Open failed".data ∧
      (generatePreviewRun initStore sampleDoc false sampleFailOracle).previews
        (genKey otherDoc) = initStore.previews (genKey otherDoc) ∧
      (generatePreviewRun initStore sampleDoc false sampleFailOracle).largePreviews
        (genKey otherDoc) = initStore.largePreviews (genKey otherDoc) ∧
      (generatePreviewRun initStore sampleDoc false sampleFailOracle).errors
        (genKey otherDoc) = initStore.errors (genKey otherDoc) ∧
      (generatePreviewRun initStore sampleDoc false sampleFailOracle).loading
        (genKey otherDoc) = initStore.loading (genKey otherDoc) ∧
      (submitAll initStore [(sampleDoc, false, sampleFailOracle),
          (otherDoc, false, sampleOkOracle)]).invocations =
        initStore.invocations ++
          [(sampleDoc, false, sampleFailOracle),
           (otherDoc, false, sampleOkOracle)].map (fun j => genKey j.1)) :=
  generatePreview_recovers_errors_locally initStore sampleDoc false
    sampleFailOracle "Open failed".data (genKey otherDoc)
    [(sampleDoc, false, sampleFailOracle), (otherDoc, false, sampleOkOracle)]
    rfl (by decide)

/-- C5: one render attempt is all-or-nothing per key: on pipeline success
both bitmap caches receive the key (with exactly the two rendered bitmaps)
and the error map is untouched; on pipeline failure neither bitmap cache
changes and the error map receives the failure message (non-empty whenever
the raised message is); and the invariant that the two bitmap caches are
populated for exactly the same keys is preserved, so no execution leaves
exactly one of the two caches populated for a key. -/
theorem render_all_or_nothing (s : PreviewStore) (doc : Citation)
    (snap : Bool) (o : RenderOracle) (hbal : balanced s) :
    ((∃ small large,
        renderPipeline o doc.url doc.page = .ok (small, large) ∧
        (generatePreviewRun s doc snap o).previews (genKey doc) = some small ∧
        (generatePreviewRun s doc snap o).largePreviews (genKey doc) = some large ∧
        (generatePreviewRun s doc snap o).errors = s.errors) ∨
      (∃ m,
        renderPipeline o doc.url doc.page = .error m ∧
        (generatePreviewRun s doc snap o).previews = s.previews ∧
        (generatePreviewRun s doc snap o).largePreviews = s.largePreviews ∧
        (generatePreviewRun s doc snap o).errors (genKey doc) = some m ∧
        (m ≠ [] → ∃ m', (generatePreviewRun s doc snap o).errors (genKey doc)
          = some m' ∧ m' ≠ []))) ∧
    balanced (generatePreviewRun s doc snap o) := by
  cases hp : renderPipeline o doc.url doc.page with
  | ok p =>
    obtain ⟨small, large⟩ := p
    have hrun : generatePreviewRun s doc snap o
        = step (step s (.guardInvoke doc snap)) (.finishOk doc small large) := by
      unfold generatePreviewRun
      rw [hp]
    rw [hrun]
    constructor
    · left
      refine ⟨small, large, rfl, ?_, ?_, rfl⟩
      · simp [step, setAt]
      · simp [step, setAt]
    · exact balanced_step (balanced_step hbal _) _
  | error m =>
    have hrun : generatePreviewRun s doc snap o
        = step (step s (.guardInvoke doc snap)) (.finishErr doc m) := by
      unfold generatePreviewRun
      rw [hp]
    rw [hrun]
    constructor
    · right
      refine ⟨m, rfl, rfl, rfl, ?_, ?_⟩
      · simp [step, setAt]
      · intro hm
        exact ⟨m, by simp [step, setAt], hm⟩
    · exact balanced_step (balanced_step hbal _) _

theorem render_all_or_nothing_witness :
    (((∃ small large,
        renderPipeline sampleOkOracle sampleDoc.url sampleDoc.page
          = .ok (small, large) ∧
        (generatePreviewRun initStore sampleDoc false sampleOkOracle).previews
          (genKey sampleDoc) = some small ∧
        (generatePreviewRun initStore sampleDoc false sampleOkOracle).largePreviews
          (genKey sampleDoc) = some large ∧
        (generatePreviewRun initStore sampleDoc false sampleOkOracle).errors
          = initStore.errors) ∨
      (∃ m,
        renderPipeline sampleOkOracle sampleDoc.url sampleDoc.page = .error m ∧
        (generatePreviewRun initStore sampleDoc false sampleOkOracle).previews
          = initStore.previews ∧
        (generatePreviewRun initStore sampleDoc false sampleOkOracle).largePreviews
          = initStore.largePreviews ∧
        (generatePreviewRun initStore sampleDoc false sampleOkOracle).errors
          (genKey sampleDoc) = some m ∧
        (m ≠ [] → ∃ m',
          (generatePreviewRun initStore sampleDoc false sampleOkOracle).errors
            (genKey sampleDoc) = some m' ∧ m' ≠ []))) ∧
    balanced (generatePreviewRun initStore sampleDoc false sampleOkOracle)) :=
  render_all_or_nothing initStore sampleDoc false sampleOkOracle balanced_init

/-- C6: `handlePreviewClick` yields the cached large bitmap iff the
citation's key is Ready (both bitmaps cached — and in every reachable store
the two caches are populated for exactly the same keys, so an Idle, Pending
or Failed key without bitmaps yields none); on none the modal state
`selectedPreview` is left unchanged, and on some the modal receives exactly
the bitmap cached for the key, with the normalised locator. -/
theorem selectForModal_iff_ready (es : List Event) (app : AppState)
    (doc : Citation) (b : Bitmap) (happ : app.store = run initStore es) :
    (selectForModal app.store doc = some b ↔
      Ready app.store (modalKey doc) ∧
        app.store.largePreviews (modalKey doc) = some b) ∧
    (selectForModal app.store doc = none → handlePreviewClick app doc = app) ∧
    (selectForModal app.store doc = some b →
      (handlePreviewClick app doc).selectedPreview =
        some ⟨cleanUrl doc.url, doc.page, doc.title, b⟩) := by
  have hbal : balanced app.store := by
    rw [happ]
    exact balanced_run balanced_init es
  refine ⟨⟨?_, ?_⟩, ?_, ?_⟩
  · intro h
    have hl : (app.store.largePreviews (modalKey doc)).isSome := by
      unfold selectForModal at h
      rw [h]
      rfl
    exact ⟨⟨(hbal _).mpr hl, hl⟩, h⟩
  · rintro ⟨hr, hb⟩
    exact hb
  · intro h
    simp [handlePreviewClick, h]
  · intro h
    simp [handlePreviewClick, h]

theorem selectForModal_iff_ready_witness :
    ((selectForModal (run initStore
        [.guardInvoke sampleDoc false,
         .finishOk sampleDoc sampleSmall sampleLarge]) sampleDoc
        = some sampleLarge ↔
      Ready (run initStore
        [.guardInvoke sampleDoc false,
         .finishOk sampleDoc sampleSmall sampleLarge]) (modalKey sampleDoc) ∧
        (run initStore
          [.guardInvoke sampleDoc false,
           .finishOk sampleDoc sampleSmall sampleLarge]).largePreviews
          (modalKey sampleDoc) = some sampleLarge) ∧
    (selectForModal (run initStore
        [.guardInvoke sampleDoc false,
         .finishOk sampleDoc sampleSmall sampleLarge]) sampleDoc = none →
      handlePreviewClick
        ⟨[], [], false, run initStore
          [.guardInvoke sampleDoc false,
           .finishOk sampleDoc sampleSmall sampleLarge], none⟩ sampleDoc =
        ⟨[], [], false, run initStore
          [.guardInvoke sampleDoc false,
           .finishOk sampleDoc sampleSmall sampleLarge], none⟩) ∧
    (selectForModal (run initStore
        [.guardInvoke sampleDoc false,
         .finishOk sampleDoc sampleSmall sampleLarge]) sampleDoc
        = some sampleLarge →
      (handlePreviewClick
        ⟨[], [], false, run initStore
          [.guardInvoke sampleDoc false,
           .finishOk sampleDoc sampleSmall sampleLarge], none⟩ sampleDoc).selectedPreview =
        some ⟨cleanUrl sampleDoc.url, sampleDoc.page, sampleDoc.title, sampleLarge⟩)) :=
  selectForModal_iff_ready
    [.guardInvoke sampleDoc false, .finishOk sampleDoc sampleSmall sampleLarge]
    ⟨[], [], false, run initStore
      [.guardInvoke sampleDoc false,
       .finishOk sampleDoc sampleSmall sampleLarge], none⟩
    sampleDoc sampleLarge rfl

/-- C7 (counterexample). The claim reads: once a key is Ready, no later
`ensurePreview` call makes it present as Pending or Failed.  After
`sampleDoc` reaches Ready: a further call whose closure snapshot predates
the cache fill (it was spawned while the first render was still in flight)
re-adds the key to the in-flight set, so the thumbnail paints the spinner
(presents as Pending); and a further call whose re-render fails — the
renderer is re-invoked on every call — writes an error entry, so the
thumbnail paints the error affordance (presents as Failed), even though
both bitmap-cache entries are still present. -/
theorem ready_presentation_cex :
    Ready (run initStore
      [.guardInvoke sampleDoc false,
       .finishOk sampleDoc sampleSmall sampleLarge]) (genKey sampleDoc)
    ∧ thumbnailView (run initStore
        [.guardInvoke sampleDoc false,
         .finishOk sampleDoc sampleSmall sampleLarge,
         .guardInvoke sampleDoc false]) sampleDoc = .loadingView
    ∧ thumbnailView (run initStore
        [.guardInvoke sampleDoc false,
         .finishOk sampleDoc sampleSmall sampleLarge,
         .guardInvoke sampleDoc true,
         .finishErr sampleDoc "Open failed".data]) sampleDoc = .errorView
    ∧ ((run initStore
        [.guardInvoke sampleDoc false,
         .finishOk sampleDoc sampleSmall sampleLarge,
         .guardInvoke sampleDoc true,
         .finishErr sampleDoc "Open failed".data]).previews
        (genKey sampleDoc)).isSome := by
  decide

/-- C7 (amended): once a key is Ready — both bitmap caches populated — it is
Ready in every later state: no `generatePreview` segment ever removes a
bitmap-cache entry. -/
theorem ready_bitmaps_persist (s : PreviewStore) (k : Str) (es : List Event)
    (h : Ready s k) : Ready (run s es) k :=
  ready_run h es

theorem ready_bitmaps_persist_witness :
    Ready (run (run initStore
        [.guardInvoke sampleDoc false,
         .finishOk sampleDoc sampleSmall sampleLarge])
      [.guardInvoke sampleDoc true,
       .finishErr sampleDoc "Open failed".data]) (genKey sampleDoc) :=
  ready_bitmaps_persist _ (genKey sampleDoc)
    [.guardInvoke sampleDoc true, .finishErr sampleDoc "Open failed".data]
    (by decide)

/-- C8: with the document opened, a successful pipeline run produces exactly
the two bitmaps of the requested page — first the small one at scale factor
0.5, then the large one at scale factor 1.5 — and the pipeline fails with an
error when the page number exceeds the document's page count, or when either
rasterization step cannot acquire a drawing surface (a 2d context). -/
theorem renderPipeline_two_scales (o : RenderOracle) (url : Str) (page : Nat)
    (pdf : PdfDocument) (hopen : o.openRes = .ok pdf) :
    (∀ small large, renderPipeline o url page = .ok (small, large) →
      small = ⟨url, page, (1 : ℚ)/2⟩ ∧ large = ⟨url, page, (3 : ℚ)/2⟩) ∧
    (pdf.numPages < page → renderPipeline o url page = .error invalidPageMsg) ∧
    (¬(page = 0 ∨ pdf.numPages < page) → o.smallCtxOk = false →
      renderPipeline o url page = .error smallCtxErrMsg) ∧
    (¬(page = 0 ∨ pdf.numPages < page) → o.smallCtxOk = true →
      o.smallRenderRes = .ok () → o.largeCtxOk = false →
      renderPipeline o url page = .error largeCtxErrMsg) := by
  have hre : renderPipeline o url page =
      (if page = 0 ∨ pdf.numPages < page then .error invalidPageMsg
       else if o.smallCtxOk = false then .error smallCtxErrMsg
       else
         match o.smallRenderRes with
         | .error m => .error m
         | .ok _ =>
           if o.largeCtxOk = false then .error largeCtxErrMsg
           else
             match o.largeRenderRes with
             | .error m => .error m
             | .ok _ => .ok (⟨url, page, (1 : ℚ)/2⟩, ⟨url, page, (3 : ℚ)/2⟩)) := by
    unfold renderPipeline
    rw [hopen]
  rw [hre]
  refine ⟨?_, ?_, ?_, ?_⟩
  · intro small large h
    by_cases h0 : page = 0 ∨ pdf.numPages < page
    · rw [if_pos h0] at h
      exact absurd h (by simp)
    · rw [if_neg h0] at h
      cases hsc : o.smallCtxOk with
      | false => rw [hsc, if_pos rfl] at h; exact absurd h (by simp)
      | true =>
        rw [hsc] at h
        simp only [Bool.true_eq_false, if_false] at h
        cases hsr : o.smallRenderRes with
        | error m => rw [hsr] at h; exact absurd h (by simp)
        | ok u =>
          rw [hsr] at h
          cases hlc : o.largeCtxOk with
          | false => rw [hlc, if_pos rfl] at h; exact absurd h (by simp)
          | true =>
            rw [hlc] at h
            simp only [Bool.true_eq_false, if_false] at h
            cases hlr : o.largeRenderRes with
            | error m => rw [hlr] at h; exact absurd h (by simp)
            | ok u2 =>
              rw [hlr] at h
              simp only [Except.ok.injEq, Prod.mk.injEq] at h
              exact ⟨h.1.symm, h.2.symm⟩
  · intro hp
    rw [if_pos (Or.inr hp)]
  · intro h0 hsc
    rw [if_neg h0, hsc, if_pos rfl]
  · intro h0 hsc hsr hlc
    rw [if_neg h0, hsc]
    simp only [Bool.true_eq_false, if_false]
    rw [hsr, hlc, if_pos rfl]

theorem renderPipeline_two_scales_witness :
    ((∀ small large,
        renderPipeline sampleOkOracle "a.pdf".data 1 = .ok (small, large) →
        small = ⟨"a.pdf".data, 1, (1 : ℚ)/2⟩ ∧
          large = ⟨"a.pdf".data, 1, (3 : ℚ)/2⟩) ∧
      ((⟨5⟩ : PdfDocument).numPages < 1 →
        renderPipeline sampleOkOracle "a.pdf".data 1 = .error invalidPageMsg) ∧
      (¬(1 = 0 ∨ (⟨5⟩ : PdfDocument).numPages < 1) →
        sampleOkOracle.smallCtxOk = false →
        renderPipeline sampleOkOracle "a.pdf".data 1 = .error smallCtxErrMsg) ∧
      (¬(1 = 0 ∨ (⟨5⟩ : PdfDocument).numPages < 1) →
        sampleOkOracle.smallCtxOk = true →
        sampleOkOracle.smallRenderRes = .ok () →
        sampleOkOracle.largeCtxOk = false →
        renderPipeline sampleOkOracle "a.pdf".data 1 = .error largeCtxErrMsg)) :=
  renderPipeline_two_scales sampleOkOracle "a.pdf".data 1 ⟨5⟩ rfl

/-- C9: error-map entries are never removed: every segment preserves the
presence of an error entry; a successful render writes both bitmap caches
while leaving the error map exactly as it was (the error is not cleared);
and the thumbnail view — which consults the error map before the bitmap
cache — presents the error affordance whenever the key has an error entry,
even with both bitmaps cached. -/
theorem error_entries_never_removed (s : PreviewStore) (k : Str) (e : Event)
    (doc : Citation) (small large : Bitmap)
    (h : (s.errors k).isSome) (hdoc : (s.errors (genKey doc)).isSome) :
    ((step s e).errors k).isSome ∧
    ((step s (.finishOk doc small large)).previews (genKey doc) = some small ∧
      (step s (.finishOk doc small large)).largePreviews (genKey doc)
        = some large ∧
      (step s (.finishOk doc small large)).errors = s.errors) ∧
    thumbnailView s doc = .errorView := by
  refine ⟨errors_isSome_step h e, ⟨?_, ?_, rfl⟩, ?_⟩
  · simp [step, setAt]
  · simp [step, setAt]
  · rcases hx : s.errors (genKey doc) with _ | m
    · rw [hx] at hdoc
      simp at hdoc
    · simp [thumbnailView, hx]

theorem error_entries_never_removed_witness :
    (((step (run initStore
        [.guardInvoke sampleDoc false, .finishErr sampleDoc "Open failed".data])
        (.guardInvoke sampleDoc false)).errors (genKey sampleDoc)).isSome ∧
      ((step (run initStore
          [.guardInvoke sampleDoc false, .finishErr sampleDoc "Open failed".data])
          (.finishOk sampleDoc sampleSmall sampleLarge)).previews (genKey sampleDoc)
          = some sampleSmall ∧
        (step (run initStore
          [.guardInvoke sampleDoc false, .finishErr sampleDoc "Open failed".data])
          (.finishOk sampleDoc sampleSmall sampleLarge)).largePreviews
          (genKey sampleDoc) = some sampleLarge ∧
        (step (run initStore
          [.guardInvoke sampleDoc false, .finishErr sampleDoc "Open failed".data])
          (.finishOk sampleDoc sampleSmall sampleLarge)).errors =
          (run initStore
            [.guardInvoke sampleDoc false,
             .finishErr sampleDoc "Open failed".data]).errors) ∧
      thumbnailView (run initStore
        [.guardInvoke sampleDoc false, .finishErr sampleDoc "Open failed".data])
        sampleDoc = .errorView) :=
  error_entries_never_removed
    (run initStore
      [.guardInvoke sampleDoc false, .finishErr sampleDoc "Open failed".data])
    (genKey sampleDoc) (.guardInvoke sampleDoc false) sampleDoc
    sampleSmall sampleLarge (by decide) (by decide)

/-- C10: a blank input — empty or whitespace-only — makes `handleSubmit` a
no-op at its synchronous interface: the guard `if (!input.trim()) return;`
fires, so the message list, the loading flag, the four preview stores and
the modal state are all left unchanged (the whole component state is
returned as-is) and no backend request is issued. -/
theorem handleSubmit_blank_noop (app : AppState)
    (h : ∀ c ∈ app.input, isJsWhitespace c) :
    handleSubmitStart app = (app, none) := by
  have hd : app.input.dropWhile isJsWhitespace = [] :=
    List.dropWhile_eq_nil_iff.mpr h
  have ht : jsTrim app.input = [] := by
    simp [jsTrim, hd]
  simp [handleSubmitStart, ht]

theorem handleSubmit_blank_noop_witness :
    handleSubmitStart ⟨[], "  ".data, false, initStore, none⟩ =
      (⟨[], "  ".data, false, initStore, none⟩, none) :=
  handleSubmit_blank_noop ⟨[], "  ".data, false, initStore, none⟩ (by decide)

end CtrlF
